/-
Verification of the booking-agent demonstration program.

The program under study sends a travel query to an LLM endpoint, lets the
model request invocations of three mock tools (flight lookup, hotel cost
lookup, currency conversion), executes those tools locally, appends the
results to the conversation, and issues a second model call whose reply is
surfaced as the final answer.

This file gives a shallow embedding of the program's data model and
operations:
  - TypeScript `number` values are modelled as rationals (ℚ); every number
    the program manipulates is exactly representable (5.5, 420, 120, 1.0).
  - The tool implementations `getFlightSchedule`, `getHotelBooking`,
    `convertCurrency` and the dispatcher `executeTool` are translated
    directly; the dispatcher's `throw new Error(...)` branch becomes
    `Except.error`.
  - The orchestrator `runBookingAgent` is parameterised by the two external
    model responses (the network calls are the only inputs); everything in
    between is the deterministic code of the source. `JSON.parse` of the
    argument payload is modelled by carrying the parsed argument record in
    the invocation request; `JSON.stringify` of a tool result is modelled by
    the executable serializer `serializeResult`.
-/
import Mathlib

namespace BookingAgent

/-! ## Data model -/

/-- Argument record handed to a tool (the result of `JSON.parse` on the
model-supplied payload, a `Record<string, any>` in the source). Each tool
reads only its own fields. The source field names `from`/`to` are keywords
in Lean and are rendered `fromCurrency`/`toCurrency`. -/
structure ToolArgs where
  origin : String
  destination : String
  tripType : String
  city : String
  nights : ℚ
  amount : ℚ
  fromCurrency : String
  toCurrency : String
deriving DecidableEq, Repr

/-- Result of `getFlightSchedule`. -/
structure FlightResult where
  origin : String
  destination : String
  tripType : String
  totalFlightTimeHours : ℚ
  totalCostUSD : ℚ
deriving DecidableEq, Repr

/-- Result of `getHotelBooking`. -/
structure HotelResult where
  city : String
  nights : ℚ
  costPerNightUSD : ℚ
  totalHotelCostUSD : ℚ
deriving DecidableEq, Repr

/-- Result of `convertCurrency` (source fields `from`/`to` rendered
`fromCurrency`/`toCurrency`). -/
structure CurrencyResult where
  fromCurrency : String
  toCurrency : String
  originalAmount : ℚ
  convertedAmount : ℚ
deriving DecidableEq, Repr

/-- A tool result is one of the three record shapes above. -/
inductive ToolResult where
  | flight : FlightResult → ToolResult
  | hotel : HotelResult → ToolResult
  | currency : CurrencyResult → ToolResult
deriving DecidableEq, Repr

/-! ## Tool implementations (src/main.ts lines 69-106) -/

/-- Flight tool: one-way constants 5.5 hours and 420 USD, doubled exactly
when `tripType` is the string "round-trip". -/
def getFlightSchedule (origin destination tripType : String) : FlightResult :=
  let oneWayDurationHours : ℚ := 5.5
  let oneWayCost : ℚ := 420
  { origin := origin
    destination := destination
    tripType := tripType
    totalFlightTimeHours :=
      if tripType = "round-trip" then oneWayDurationHours * 2 else oneWayDurationHours
    totalCostUSD :=
      if tripType = "round-trip" then oneWayCost * 2 else oneWayCost }

/-- Hotel tool: fixed nightly rate 120 USD, total = rate × nights. -/
def getHotelBooking (city : String) (nights : ℚ) : HotelResult :=
  let costPerNightUSD : ℚ := 120
  { city := city
    nights := nights
    costPerNightUSD := costPerNightUSD
    totalHotelCostUSD := costPerNightUSD * nights }

/-- Currency tool: fixed rate 1.0, codes passed through unchanged. -/
def convertCurrency (amount : ℚ) (fromCurrency toCurrency : String) : CurrencyResult :=
  let rate : ℚ := 1.0
  { fromCurrency := fromCurrency
    toCurrency := toCurrency
    originalAmount := amount
    convertedAmount := amount * rate }

/-! ## Tool dispatcher (src/main.ts lines 109-137) -/

/-- Dispatcher: a switch over the tool name forwarding the argument record
to the matching implementation; any other name throws `Unknown tool`. -/
def executeTool (name : String) (args : ToolArgs) : Except String ToolResult :=
  if name = "get_flight_schedule" then
    .ok (.flight (getFlightSchedule args.origin args.destination args.tripType))
  else if name = "get_hotel_booking" then
    .ok (.hotel (getHotelBooking args.city args.nights))
  else if name = "convert_currency" then
    .ok (.currency (convertCurrency args.amount args.fromCurrency args.toCurrency))
  else
    .error ("Unknown tool: " ++ name)

/-! ## Claims about the tool layer -/

/-- C1: for every origin and destination, a "round-trip" flight lookup
returns exactly double the one-way constants: 11.0 hours and 840 USD. -/
theorem flight_roundTrip_doubles (origin destination : String) :
    (getFlightSchedule origin destination "round-trip").totalFlightTimeHours = 11 ∧
    (getFlightSchedule origin destination "round-trip").totalCostUSD = 840 := by
  constructor <;> simp [getFlightSchedule] <;> norm_num

/-- C2: for every trip type other than the exact string "round-trip"
(one-way, typos, the empty string, ...), flight lookup returns exactly the
one-way constants 5.5 hours and 420 USD. -/
theorem flight_other_oneWay (origin destination tripType : String)
    (h : tripType ≠ "round-trip") :
    (getFlightSchedule origin destination tripType).totalFlightTimeHours = 5.5 ∧
    (getFlightSchedule origin destination tripType).totalCostUSD = 420 := by
  constructor <;> simp [getFlightSchedule, h]

/-- Witness for C2 at the concrete trip type "one-way". -/
theorem flight_other_oneWay_witness :
    (getFlightSchedule "Lagos" "Nairobi" "one-way").totalFlightTimeHours = 5.5 ∧
    (getFlightSchedule "Lagos" "Nairobi" "one-way").totalCostUSD = 420 :=
  flight_other_oneWay "Lagos" "Nairobi" "one-way" (by decide)

/-- C3: for every city and every non-negative integer number of nights n,
hotel lookup returns the nightly rate 120 USD and total cost 120 × n. -/
theorem hotel_cost_linear (city : String) (n : ℕ) :
    (getHotelBooking city (n : ℚ)).costPerNightUSD = 120 ∧
    (getHotelBooking city (n : ℚ)).totalHotelCostUSD = 120 * (n : ℚ) := by
  constructor <;> simp [getHotelBooking]

/-- C4: currency conversion is the identity on the amount (rate fixed at
1.0) and passes both currency codes through unchanged. -/
theorem convertCurrency_identity (amount : ℚ) (fromCurrency toCurrency : String) :
    (convertCurrency amount fromCurrency toCurrency).convertedAmount = amount ∧
    (convertCurrency amount fromCurrency toCurrency).originalAmount = amount ∧
    (convertCurrency amount fromCurrency toCurrency).fromCurrency = fromCurrency ∧
    (convertCurrency amount fromCurrency toCurrency).toCurrency = toCurrency := by
  refine ⟨?_, rfl, rfl, rfl⟩
  show amount * 1.0 = amount
  norm_num

/-- C5: the dispatcher errors with "Unknown tool" on every unregistered
name and produces no result there; on each of the three registered names it
returns the corresponding tool implementation applied to the forwarded
arguments. -/
theorem executeTool_dispatch (name : String) (args : ToolArgs) :
    (name ≠ "get_flight_schedule" → name ≠ "get_hotel_booking" →
      name ≠ "convert_currency" →
      executeTool name args = .error ("Unknown tool: " ++ name)) ∧
    executeTool "get_flight_schedule" args =
      .ok (.flight (getFlightSchedule args.origin args.destination args.tripType)) ∧
    executeTool "get_hotel_booking" args =
      .ok (.hotel (getHotelBooking args.city args.nights)) ∧
    executeTool "convert_currency" args =
      .ok (.currency (convertCurrency args.amount args.fromCurrency args.toCurrency)) := by
  refine ⟨fun h1 h2 h3 => ?_, rfl, rfl, rfl⟩
  simp [executeTool, h1, h2, h3]

/-- Witness for C5: at the unregistered name "teleport" the dispatcher
signals the "Unknown tool" error. -/
theorem executeTool_dispatch_witness :
    executeTool "teleport"
        ⟨"", "", "", "", 0, 0, "", ""⟩ = .error ("Unknown tool: " ++ "teleport") :=
  (executeTool_dispatch "teleport" ⟨"", "", "", "", 0, 0, "", ""⟩).1
    (by decide) (by decide) (by decide)

/-! ## Orchestrator data model (src/main.ts lines 139-199)

The two outbound network calls are the only external inputs of
`runBookingAgent`; the orchestrator is therefore embedded as a pure
function of the two model responses, recording the outbound requests it
would issue, the final conversation, and the text it surfaces. -/

/-- Parameter entry of a tool descriptor's JSON schema. -/
structure ParamSpec where
  paramName : String
  paramType : String
  enumVals : List String
deriving DecidableEq, Repr

/-- Descriptor of one tool in the Tool Catalog. -/
structure ToolDescriptor where
  name : String
  description : String
  parameters : List ParamSpec
  required : List String
deriving DecidableEq, Repr

/-- The static Tool Catalog (source constant `tools`). -/
def tools : List ToolDescriptor :=
  [ { name := "get_flight_schedule"
      description := "Returns flight schedule and pricing in USD"
      parameters :=
        [ ⟨"origin", "string", []⟩
        , ⟨"destination", "string", []⟩
        , ⟨"tripType", "string", ["one-way", "round-trip"]⟩ ]
      required := ["origin", "destination", "tripType"] }
  , { name := "get_hotel_booking"
      description := "Returns hotel cost per night in USD"
      parameters := [⟨"city", "string", []⟩, ⟨"nights", "number", []⟩]
      required := ["city", "nights"] }
  , { name := "convert_currency"
      description := "Converts an amount from one currency to another"
      parameters :=
        [⟨"amount", "number", []⟩, ⟨"from", "string", []⟩, ⟨"to", "string", []⟩]
      required := ["amount", "from", "to"] } ]

/-- The `function` field of a tool-invocation request: tool name plus the
argument payload (held here already parsed; the source stores the JSON text
and parses it at use). -/
structure FunctionCall where
  name : String
  arguments : ToolArgs
deriving DecidableEq, Repr

/-- A tool-invocation request as delivered inside a model response:
identifier, entry type, and an optional function field. -/
structure ToolCall where
  id : String
  type : String
  function : Option FunctionCall
deriving DecidableEq, Repr

/-- A conversation message: the initial user message, the assistant reply
(carrying the optional tool-invocation list exactly as received), or a
tool-result message tagged with the originating invocation's identifier. -/
inductive Message where
  | user : String → Message
  | assistant : String → Option (List ToolCall) → Message
  | tool : String → String → Message
deriving DecidableEq, Repr

/-- A model response: text content plus the optional tool-invocation list
(`tool_calls` may be absent; the source tests it for JavaScript truthiness,
under which a present-but-empty list still counts as true). -/
structure ModelResponse where
  content : String
  tool_calls : Option (List ToolCall)
deriving DecidableEq, Repr

/-- An outbound chat-completion request: model identifier, conversation,
and the optional Tool Catalog with its tool-choice policy. -/
structure ChatRequest where
  model : String
  messages : List Message
  tools : Option (List ToolDescriptor)
  tool_choice : Option String
deriving DecidableEq, Repr

/-- Observable outcome of a run: the outbound requests in order, the final
conversation, and the surfaced text. -/
structure RunOutcome where
  requests : List ChatRequest
  finalMessages : List Message
  output : String
deriving DecidableEq, Repr

/-- The model identifier of the first ("selection") call. -/
def MODEL_NAME : String := "nvidia/nemotron-3-nano-30b-a3b:free"

/-- The fixed initial user message of the demonstration. -/
def initialUserMessage : Message :=
  .user ("I\x27m taking a flight from Lagos to Nairobi for a conference. " ++
    "I would like to know the total flight time back and forth, and the " ++
    "total cost of logistics for this conference if I\x27m staying for three days.")

/-- Rendering of a rational for the serialized tool result (models the
number formatting of `JSON.stringify`; integral values print as integers). -/
def ratStr (q : ℚ) : String :=
  if q.den = 1 then toString q.num else toString q.num ++ "/" ++ toString q.den

/-- Serialization of a tool result into message content, modelling
`JSON.stringify(result)` (field order as in the source records; string
escaping not modelled). -/
def serializeResult : ToolResult → String
  | .flight r =>
    "\x7b\"origin\":\"" ++ r.origin ++ "\",\"destination\":\"" ++ r.destination ++
      "\",\"tripType\":\"" ++ r.tripType ++ "\",\"totalFlightTimeHours\":" ++
      ratStr r.totalFlightTimeHours ++ ",\"totalCostUSD\":" ++
      ratStr r.totalCostUSD ++ "\x7d"
  | .hotel r =>
    "\x7b\"city\":\"" ++ r.city ++ "\",\"nights\":" ++ ratStr r.nights ++
      ",\"costPerNightUSD\":" ++ ratStr r.costPerNightUSD ++
      ",\"totalHotelCostUSD\":" ++ ratStr r.totalHotelCostUSD ++ "\x7d"
  | .currency r =>
    "\x7b\"from\":\"" ++ r.fromCurrency ++ "\",\"to\":\"" ++ r.toCurrency ++
      "\",\"originalAmount\":" ++ ratStr r.originalAmount ++
      ",\"convertedAmount\":" ++ ratStr r.convertedAmount ++ "\x7d"

/-- The tool-execution loop body (source lines 163-184): each entry whose
type is not 'function' or whose function field is missing is skipped
(`continue`); every other entry is dispatched through `executeTool` and
yields a tool-result message with the entry's identifier; a dispatcher
error aborts the run (an uncaught throw in the source). -/
def processToolCalls : List ToolCall → Except String (List Message)
  | [] => .ok []
  | call :: rest =>
    match call.type == "function", call.function with
    | true, some f =>
      match executeTool f.name f.arguments with
      | .error e => .error e
      | .ok result =>
        match processToolCalls rest with
        | .error e => .error e
        | .ok msgs => .ok (Message.tool call.id (serializeResult result) :: msgs)
    | _, _ => processToolCalls rest

/-- The orchestrator (source `runBookingAgent`), parameterised by the first
model response and the second response's content. The first request carries
the conversation, the Tool Catalog and automatic tool choice; when
`tool_calls` is present (JavaScript truthiness: also when empty) the tool
loop runs and a second, catalog-free request to 'openai/gpt-4o-mini' is
issued on the updated conversation, whose reply is surfaced; otherwise the
first response's content is surfaced directly. -/
def runBookingAgent (resp1 : ModelResponse) (resp2Content : String) :
    Except String RunOutcome :=
  let messages : List Message := [initialUserMessage]
  let req1 : ChatRequest := ⟨MODEL_NAME, messages, some tools, some "auto"⟩
  let responseMessage : Message := .assistant resp1.content resp1.tool_calls
  let messages := messages ++ [responseMessage]
  match resp1.tool_calls with
  | some calls =>
    match processToolCalls calls with
    | .error e => .error e
    | .ok toolMsgs =>
      let messages := messages ++ toolMsgs
      let req2 : ChatRequest := ⟨"openai/gpt-4o-mini", messages, none, none⟩
      .ok ⟨[req1, req2], messages, resp2Content⟩
  | none => .ok ⟨[req1], messages, resp1.content⟩

/-! ## Observation functions on conversations and outcomes -/

/-- The tool-invocation requests a response contains (empty when the
`tool_calls` field is absent). -/
def invocationRequests (r : ModelResponse) : List ToolCall :=
  r.tool_calls.getD []

/-- Whether a message is a tool-result message. -/
def isToolResult : Message → Bool
  | .tool _ _ => true
  | _ => false

/-- The tool-result messages of a conversation, in order. -/
def toolResultMessages (msgs : List Message) : List Message :=
  msgs.filter isToolResult

/-- The identifier a tool-result message carries (junk on other roles). -/
def toolMsgId : Message → String
  | .tool id _ => id
  | _ => ""

/-- Whether the tool loop dispatches an invocation entry (type 'function'
and function field present) rather than skipping it. -/
def isProcessable (call : ToolCall) : Bool :=
  call.type == "function" && call.function.isSome

/-- The invocation-request identifiers a message carries (only assistant
messages with a present `tool_calls` list carry any). -/
def msgInvocationIds : Message → List String
  | .assistant _ (some calls) => calls.map ToolCall.id
  | _ => []

/-- Every tool-result message in the conversation carries an identifier
occurring at least once among the invocation requests of the messages
strictly before it. -/
def toolIdsMatched (msgs : List Message) : Prop :=
  ∀ pre m post, msgs = pre ++ m :: post → isToolResult m = true →
    1 ≤ (pre.flatMap msgInvocationIds).count (toolMsgId m)

/-- Every tool-result message in the conversation carries an identifier
occurring exactly once among the invocation requests of the messages
strictly before it. -/
def toolIdsMatchedUniquely (msgs : List Message) : Prop :=
  ∀ pre m post, msgs = pre ++ m :: post → isToolResult m = true →
    (pre.flatMap msgInvocationIds).count (toolMsgId m) = 1

/-! ## Helper lemmas on the tool loop and the orchestrator -/

lemma processToolCalls_cons_eq (call : ToolCall) (rest : List ToolCall) :
    processToolCalls (call :: rest) =
      match call.type == "function", call.function with
      | true, some f =>
        match executeTool f.name f.arguments with
        | .error e => .error e
        | .ok result =>
          match processToolCalls rest with
          | .error e => .error e
          | .ok msgs => .ok (Message.tool call.id (serializeResult result) :: msgs)
      | _, _ => processToolCalls rest := rfl

lemma processToolCalls_cons_skip (call : ToolCall) (rest : List ToolCall)
    (h : isProcessable call = false) :
    processToolCalls (call :: rest) = processToolCalls rest := by
  rw [processToolCalls_cons_eq]
  rcases hf : call.function with _ | f
  · cases ht : call.type == "function" <;> rfl
  · have ht : (call.type == "function") = false := by
      simp only [isProcessable, hf, Option.isSome_some, Bool.and_true] at h
      exact h
    rw [ht]

lemma processToolCalls_cons_ok (call : ToolCall) (rest : List ToolCall)
    (f : FunctionCall) (hf : call.function = some f) (ht : call.type = "function") :
    processToolCalls (call :: rest) =
      match executeTool f.name f.arguments with
      | .error e => .error e
      | .ok result =>
        match processToolCalls rest with
        | .error e => .error e
        | .ok msgs => .ok (Message.tool call.id (serializeResult result) :: msgs) := by
  rw [processToolCalls_cons_eq]
  have ht' : (call.type == "function") = true := by simp [ht]
  rw [hf, ht']

lemma processToolCalls_spec (calls : List ToolCall) :
    ∀ msgs, processToolCalls calls = .ok msgs →
      msgs.map toolMsgId = (calls.filter isProcessable).map ToolCall.id ∧
      ∀ m ∈ msgs, isToolResult m = true := by
  induction calls with
  | nil =>
    intro msgs h
    simp only [processToolCalls, Except.ok.injEq] at h
    subst h
    simp
  | cons call rest ih =>
    intro msgs h
    by_cases hp : isProcessable call = true
    · obtain ⟨f, hf⟩ : ∃ f, call.function = some f := by
        rcases hfo : call.function with _ | f
        · simp [isProcessable, hfo] at hp
        · exact ⟨f, rfl⟩
      have ht : call.type = "function" := by
        simp only [isProcessable, hf, Option.isSome_some, Bool.and_true,
          beq_iff_eq] at hp
        exact hp
      rw [processToolCalls_cons_ok call rest f hf ht] at h
      rcases hex : executeTool f.name f.arguments with e | result
      · rw [hex] at h; cases h
      · rw [hex] at h
        rcases hrec : processToolCalls rest with e | msgs'
        · rw [hrec] at h; cases h
        · rw [hrec] at h
          simp only [Except.ok.injEq] at h
          subst h
          obtain ⟨ih1, ih2⟩ := ih msgs' hrec
          refine ⟨?_, ?_⟩
          · simp [List.filter_cons, hp, toolMsgId, ih1]
          · intro m hm
            rcases List.mem_cons.mp hm with rfl | hm
            · rfl
            · exact ih2 m hm
    · have hp' : isProcessable call = false := by simpa using hp
      rw [processToolCalls_cons_skip call rest hp'] at h
      obtain ⟨ih1, ih2⟩ := ih msgs h
      refine ⟨?_, ih2⟩
      simp [List.filter_cons, hp', ih1]

lemma runBookingAgent_none_eq (resp1 : ModelResponse) (c : String)
    (hc : resp1.tool_calls = none) :
    runBookingAgent resp1 c =
      .ok ⟨[⟨MODEL_NAME, [initialUserMessage], some tools, some "auto"⟩],
           [initialUserMessage, Message.assistant resp1.content none],
           resp1.content⟩ := by
  simp [runBookingAgent, hc]

lemma runBookingAgent_some_eq (resp1 : ModelResponse) (c : String)
    (calls : List ToolCall) (hc : resp1.tool_calls = some calls)
    (toolMsgs : List Message) (hp : processToolCalls calls = .ok toolMsgs) :
    runBookingAgent resp1 c =
      .ok ⟨[⟨MODEL_NAME, [initialUserMessage], some tools, some "auto"⟩,
            ⟨"openai/gpt-4o-mini",
             [initialUserMessage, Message.assistant resp1.content (some calls)] ++ toolMsgs,
             none, none⟩],
           [initialUserMessage, Message.assistant resp1.content (some calls)] ++ toolMsgs,
           c⟩ := by
  simp [runBookingAgent, hc, hp]

lemma runBookingAgent_some_err (resp1 : ModelResponse) (c : String)
    (calls : List ToolCall) (hc : resp1.tool_calls = some calls)
    (e : String) (hp : processToolCalls calls = .error e) :
    runBookingAgent resp1 c = .error e := by
  simp [runBookingAgent, hc, hp]

lemma msgInvocationIds_of_toolResult (m : Message) (h : isToolResult m = true) :
    msgInvocationIds m = [] := by
  cases m <;> simp_all [isToolResult, msgInvocationIds]

lemma flatMap_invocationIds_nil (l : List Message)
    (h : ∀ m ∈ l, isToolResult m = true) :
    l.flatMap msgInvocationIds = [] := by
  induction l with
  | nil => rfl
  | cons m rest ih =>
    simp only [List.flatMap_cons]
    rw [msgInvocationIds_of_toolResult m (h m (by simp)),
      ih (fun x hx => h x (by simp [hx]))]
    rfl

/-! ## Concrete inputs used by witnesses and counterexamples -/

/-- A concrete argument record used by witnesses. -/
def sampleArgs : ToolArgs :=
  ⟨"Lagos", "Nairobi", "round-trip", "Nairobi", 3, 100, "USD", "KES"⟩

/-- A well-formed invocation request of the flight tool. -/
def sampleCall : ToolCall :=
  ⟨"call_1", "function", some ⟨"get_flight_schedule", sampleArgs⟩⟩

/-- A first model response requesting one flight lookup. -/
def sampleResp : ModelResponse := ⟨"", some [sampleCall]⟩

/-- The tool-result message the sample run appends. -/
def sampleToolMsg : Message :=
  .tool "call_1"
    (serializeResult (.flight (getFlightSchedule "Lagos" "Nairobi" "round-trip")))

/-- The outcome of the sample run. -/
def sampleOut : RunOutcome :=
  ⟨[⟨MODEL_NAME, [initialUserMessage], some tools, some "auto"⟩,
    ⟨"openai/gpt-4o-mini",
     [initialUserMessage, Message.assistant "" (some [sampleCall]), sampleToolMsg],
     none, none⟩],
   [initialUserMessage, Message.assistant "" (some [sampleCall]), sampleToolMsg],
   "final answer"⟩

/-- An invocation request of the currency tool whose identifier is reused
twice in `dupResp`. -/
def dupCall : ToolCall :=
  ⟨"call_1", "function", some ⟨"convert_currency", sampleArgs⟩⟩

/-- A first model response repeating the identifier "call_1". -/
def dupResp : ModelResponse := ⟨"", some [dupCall, dupCall]⟩

/-- The tool-result message each of the duplicate invocations appends. -/
def dupToolMsg : Message :=
  .tool "call_1" (serializeResult (.currency (convertCurrency 100 "USD" "KES")))

/-- The outcome of the duplicate-identifier run. -/
def dupOut : RunOutcome :=
  ⟨[⟨MODEL_NAME, [initialUserMessage], some tools, some "auto"⟩,
    ⟨"openai/gpt-4o-mini",
     [initialUserMessage, Message.assistant "" (some [dupCall, dupCall]),
      dupToolMsg, dupToolMsg],
     none, none⟩],
   [initialUserMessage, Message.assistant "" (some [dupCall, dupCall]),
    dupToolMsg, dupToolMsg],
   "done"⟩

/-- An invocation entry lacking a function field (skipped by the loop). -/
def badCall : ToolCall := ⟨"call_9", "function", none⟩

/-! ## Claims about the orchestrator -/

/-- C6 (amended): if the first model response's tool-invocation list is
absent, the orchestrator issues no second model call, executes no tool,
and surfaces the first response's content verbatim. (As literally stated
the claim fails on a present-but-empty invocation list: the source tests
the field for JavaScript truthiness, under which an empty list still
triggers the second model call — see the counterexample.) -/
theorem runBookingAgent_noToolCalls_direct (resp1 : ModelResponse)
    (resp2Content : String) (h : resp1.tool_calls = none) :
    runBookingAgent resp1 resp2Content =
      .ok ⟨[⟨MODEL_NAME, [initialUserMessage], some tools, some "auto"⟩],
           [initialUserMessage, Message.assistant resp1.content none],
           resp1.content⟩ :=
  runBookingAgent_none_eq resp1 resp2Content h

/-- Witness for C6 at a concrete response without a tool-invocation list. -/
theorem runBookingAgent_noToolCalls_direct_witness :
    runBookingAgent ⟨"hello", none⟩ "unused" =
      .ok ⟨[⟨MODEL_NAME, [initialUserMessage], some tools, some "auto"⟩],
           [initialUserMessage, Message.assistant "hello" none], "hello"⟩ :=
  runBookingAgent_noToolCalls_direct ⟨"hello", none⟩ "unused" rfl

/-- C6 counterexample: a first response with a present-but-empty
tool-invocation list contains no tool-invocation requests, yet the run
still issues the second model call (two outbound requests) and surfaces
the second response's content instead of the first's. -/
theorem runBookingAgent_emptyToolCalls_secondCall :
    invocationRequests ⟨"hello", some []⟩ = [] ∧
    runBookingAgent ⟨"hello", some []⟩ "synth" =
      .ok ⟨[⟨MODEL_NAME, [initialUserMessage], some tools, some "auto"⟩,
            ⟨"openai/gpt-4o-mini",
             [initialUserMessage, Message.assistant "hello" (some [])], none, none⟩],
           [initialUserMessage, Message.assistant "hello" (some [])], "synth"⟩ ∧
    ("synth" : String) ≠ "hello" :=
  ⟨rfl, rfl, by decide⟩

/-- C7: in every completed run, the tool-result messages appended to the
conversation carry, in order, exactly the identifiers of the dispatched
invocation requests, a subsequence (hence order-preserving) of the
identifiers of the triggering response's invocation-request list. -/
theorem toolResults_follow_invocation_order (resp1 : ModelResponse)
    (resp2Content : String) (out : RunOutcome)
    (h : runBookingAgent resp1 resp2Content = .ok out) :
    (toolResultMessages out.finalMessages).map toolMsgId =
      ((invocationRequests resp1).filter isProcessable).map ToolCall.id ∧
    List.Sublist ((toolResultMessages out.finalMessages).map toolMsgId)
      ((invocationRequests resp1).map ToolCall.id) := by
  have main : (toolResultMessages out.finalMessages).map toolMsgId =
      ((invocationRequests resp1).filter isProcessable).map ToolCall.id := by
    rcases hc : resp1.tool_calls with _ | calls
    · rw [runBookingAgent_none_eq resp1 resp2Content hc] at h
      simp only [Except.ok.injEq] at h
      subst h
      simp [toolResultMessages, invocationRequests, hc, isToolResult,
        initialUserMessage]
    · rcases hp : processToolCalls calls with e | toolMsgs
      · rw [runBookingAgent_some_err resp1 resp2Content calls hc e hp] at h
        cases h
      · rw [runBookingAgent_some_eq resp1 resp2Content calls hc toolMsgs hp] at h
        simp only [Except.ok.injEq] at h
        subst h
        obtain ⟨hids, htool⟩ := processToolCalls_spec calls toolMsgs hp
        simp only [invocationRequests, hc, Option.getD_some]
        rw [toolResultMessages, List.filter_append]
        have h1 : List.filter isToolResult
            [initialUserMessage, Message.assistant resp1.content (some calls)] = [] :=
          rfl
        have h2 : List.filter isToolResult toolMsgs = toolMsgs :=
          List.filter_eq_self.mpr htool
        rw [h1, h2, List.nil_append, hids]
  refine ⟨main, ?_⟩
  rw [main]
  exact List.Sublist.map ToolCall.id (List.filter_sublist _)

/-- Witness for C7 at the sample run with one flight-tool invocation. -/
theorem toolResults_follow_invocation_order_witness :
    (toolResultMessages sampleOut.finalMessages).map toolMsgId =
      ((invocationRequests sampleResp).filter isProcessable).map ToolCall.id ∧
    List.Sublist ((toolResultMessages sampleOut.finalMessages).map toolMsgId)
      ((invocationRequests sampleResp).map ToolCall.id) :=
  toolResults_follow_invocation_order sampleResp "final answer" sampleOut rfl

/-- C8 (amended): in every completed run, each tool-result message's
identifier occurs among the invocation-request identifiers appearing
earlier in the conversation — exactly once whenever the triggering
response's invocation identifiers are pairwise distinct (the code does not
enforce uniqueness: a response repeating an identifier yields several
matches, see the counterexample) — and every catalog-free request (the
second model call) carries all tool-result messages of the final
conversation, i.e. each is appended before the second call is issued. -/
theorem toolResult_ids_matched (resp1 : ModelResponse) (resp2Content : String)
    (out : RunOutcome) (h : runBookingAgent resp1 resp2Content = .ok out) :
    toolIdsMatched out.finalMessages ∧
    (((invocationRequests resp1).map ToolCall.id).Nodup →
      toolIdsMatchedUniquely out.finalMessages) ∧
    (∀ req ∈ out.requests, req.tools = none →
      ∀ m ∈ out.finalMessages, isToolResult m = true → m ∈ req.messages) := by
  rcases hc : resp1.tool_calls with _ | calls
  · rw [runBookingAgent_none_eq resp1 resp2Content hc] at h
    simp only [Except.ok.injEq] at h
    subst h
    have noTool : ∀ pre (m : Message) post,
        [initialUserMessage, Message.assistant resp1.content none] =
          pre ++ m :: post → isToolResult m = true → False := by
      intro pre m post heq hm
      rcases pre with _ | ⟨p1, _ | ⟨p2, pre⟩⟩ <;>
        simp only [List.cons_append, List.nil_append] at heq
      · injection heq with e1 e2
        subst e1
        exact absurd hm (by simp [initialUserMessage, isToolResult])
      · injection heq with e1 e2
        injection e2 with e2 e3
        subst e2
        exact absurd hm (by simp [isToolResult])
      · injection heq with e1 e2
        injection e2 with e2 e3
        simp at e3
    refine ⟨?_, fun _ => ?_, ?_⟩
    · exact fun pre m post heq hm => (noTool pre m post heq hm).elim
    · exact fun pre m post heq hm => (noTool pre m post heq hm).elim
    · intro req hreq htools m _ _
      simp only [List.mem_singleton] at hreq
      subst hreq
      cases htools
  · rcases hp : processToolCalls calls with e | toolMsgs
    · rw [runBookingAgent_some_err resp1 resp2Content calls hc e hp] at h
      cases h
    · rw [runBookingAgent_some_eq resp1 resp2Content calls hc toolMsgs hp] at h
      simp only [Except.ok.injEq] at h
      subst h
      obtain ⟨hids, htool⟩ := processToolCalls_spec calls toolMsgs hp
      have memId : ∀ pre m post, toolMsgs = pre ++ m :: post →
          toolMsgId m ∈ calls.map ToolCall.id := by
        intro pre m post h3
        have hmem : m ∈ toolMsgs := by
          rw [h3]; exact List.mem_append_right pre (List.mem_cons_self m post)
        have : toolMsgId m ∈ toolMsgs.map toolMsgId := List.mem_map_of_mem toolMsgId hmem
        rw [hids] at this
        exact List.map_subset ToolCall.id (List.filter_subset' calls) this
      have countEq : ∀ pre m post,
          ([initialUserMessage, Message.assistant resp1.content (some calls)] ++
            toolMsgs) = pre ++ m :: post → isToolResult m = true →
          (pre.flatMap msgInvocationIds).count (toolMsgId m) =
            (calls.map ToolCall.id).count (toolMsgId m) ∧
            toolMsgId m ∈ calls.map ToolCall.id := by
        intro pre m post heq hm
        simp only [List.cons_append, List.nil_append] at heq
        rcases pre with _ | ⟨p1, _ | ⟨p2, pre⟩⟩
        · injection heq with e1 _
          subst e1
          simp [initialUserMessage, isToolResult] at hm
        · injection heq with e1 e2
          injection e2 with e2 _
          subst e2
          simp [isToolResult] at hm
        · injection heq with e1 e2
          injection e2 with e2 e3
          subst e1
          subst e2
          have hpre : pre.flatMap msgInvocationIds = [] :=
            flatMap_invocationIds_nil pre
              (fun x hx => htool x (e3 ▸ List.mem_append_left _ hx))
          refine ⟨?_, memId pre m post e3⟩
          simp [msgInvocationIds, initialUserMessage, hpre]
      refine ⟨?_, fun hnd => ?_, ?_⟩
      · intro pre m post heq hm
        obtain ⟨hcount, hmem⟩ := countEq pre m post heq hm
        rw [hcount]
        exact List.count_pos_iff.mpr hmem
      · intro pre m post heq hm
        obtain ⟨hcount, hmem⟩ := countEq pre m post heq hm
        rw [hcount]
        have hnd' : (calls.map ToolCall.id).Nodup := by
          simpa [invocationRequests, hc] using hnd
        exact List.count_eq_one_of_mem hnd' hmem
      · intro req hreq htools m hmm _
        rcases List.mem_cons.mp hreq with rfl | hreq
        · cases htools
        · rcases List.mem_cons.mp hreq with rfl | hreq
          · exact hmm
          · cases hreq

/-- Witness for C8 at the sample run with one flight-tool invocation. -/
theorem toolResult_ids_matched_witness :
    toolIdsMatched sampleOut.finalMessages ∧
    (((invocationRequests sampleResp).map ToolCall.id).Nodup →
      toolIdsMatchedUniquely sampleOut.finalMessages) ∧
    (∀ req ∈ sampleOut.requests, req.tools = none →
      ∀ m ∈ sampleOut.finalMessages, isToolResult m = true → m ∈ req.messages) :=
  toolResult_ids_matched sampleResp "final answer" sampleOut rfl

/-- C8 counterexample: nothing deduplicates invocation identifiers; when
the first response repeats the identifier "call_1" in two invocation
requests, the run completes and its first tool-result message matches two
(not exactly one) earlier invocation-request identifier occurrences. -/
theorem toolResult_id_matched_twice :
    runBookingAgent dupResp "done" = .ok dupOut ∧
    ¬ toolIdsMatchedUniquely dupOut.finalMessages := by
  refine ⟨rfl, fun hu => ?_⟩
  have h2 := hu [initialUserMessage, Message.assistant "" (some [dupCall, dupCall])]
    dupToolMsg [dupToolMsg] rfl rfl
  have h3 : (([initialUserMessage,
      Message.assistant "" (some [dupCall, dupCall])]).flatMap
        msgInvocationIds).count (toolMsgId dupToolMsg) = 2 := rfl
  rw [h3] at h2
  exact absurd h2 (by decide)

/-- C9: whenever the first response carries at least one invocation
request, a completed run issues exactly one second model call after all
invocations are processed, passing the full updated conversation (user
message, assistant reply, all tool-result messages) without the Tool
Catalog, to the model 'openai/gpt-4o-mini', distinct from the first call's
MODEL_NAME, and surfaces that second call's reply. -/
theorem synthesis_call_spec (resp1 : ModelResponse) (resp2Content : String)
    (out : RunOutcome) (calls : List ToolCall)
    (h : runBookingAgent resp1 resp2Content = .ok out)
    (hc : resp1.tool_calls = some calls) (_hne : calls ≠ []) :
    ∃ toolMsgs, processToolCalls calls = .ok toolMsgs ∧
      out.finalMessages =
        [initialUserMessage, Message.assistant resp1.content (some calls)] ++ toolMsgs ∧
      out.requests =
        [⟨MODEL_NAME, [initialUserMessage], some tools, some "auto"⟩,
         ⟨"openai/gpt-4o-mini", out.finalMessages, none, none⟩] ∧
      ("openai/gpt-4o-mini" : String) ≠ MODEL_NAME ∧
      out.output = resp2Content := by
  rcases hp : processToolCalls calls with e | toolMsgs
  · rw [runBookingAgent_some_err resp1 resp2Content calls hc e hp] at h
    cases h
  · rw [runBookingAgent_some_eq resp1 resp2Content calls hc toolMsgs hp] at h
    simp only [Except.ok.injEq] at h
    subst h
    exact ⟨toolMsgs, rfl, rfl, rfl, by decide, rfl⟩

/-- Witness for C9 at the sample run with one flight-tool invocation. -/
theorem synthesis_call_spec_witness :
    ∃ toolMsgs, processToolCalls [sampleCall] = .ok toolMsgs ∧
      sampleOut.finalMessages =
        [initialUserMessage,
         Message.assistant sampleResp.content (some [sampleCall])] ++ toolMsgs ∧
      sampleOut.requests =
        [⟨MODEL_NAME, [initialUserMessage], some tools, some "auto"⟩,
         ⟨"openai/gpt-4o-mini", sampleOut.finalMessages, none, none⟩] ∧
      ("openai/gpt-4o-mini" : String) ≠ MODEL_NAME ∧
      sampleOut.output = "final answer" :=
  synthesis_call_spec sampleResp "final answer" sampleOut [sampleCall] rfl rfl
    (by decide)

/-- C10: an invocation entry whose type is not 'function' or which lacks a
function field is silently skipped: the tool loop yields exactly the same
messages as on the list without the entry (no dispatch, no tool-result
message for it, the remaining entries still processed in order), and the
tool-result messages of a whole run are unchanged by the entry's presence. -/
theorem invalid_call_skipped (pre post : List ToolCall) (call : ToolCall)
    (content resp2Content : String) (h : isProcessable call = false) :
    processToolCalls (pre ++ call :: post) = processToolCalls (pre ++ post) ∧
    (runBookingAgent ⟨content, some (pre ++ call :: post)⟩ resp2Content).map
        (fun out => toolResultMessages out.finalMessages) =
      (runBookingAgent ⟨content, some (pre ++ post)⟩ resp2Content).map
        (fun out => toolResultMessages out.finalMessages) := by
  have key : processToolCalls (pre ++ call :: post) = processToolCalls (pre ++ post) := by
    induction pre with
    | nil => simpa using processToolCalls_cons_skip call post h
    | cons p pre ih =>
      by_cases hp : isProcessable p = true
      · obtain ⟨f, hf⟩ : ∃ f, p.function = some f := by
          rcases hfo : p.function with _ | f
          · simp [isProcessable, hfo] at hp
          · exact ⟨f, rfl⟩
        have ht : p.type = "function" := by
          simp only [isProcessable, hf, Option.isSome_some, Bool.and_true,
            beq_iff_eq] at hp
          exact hp
        rw [List.cons_append, List.cons_append,
          processToolCalls_cons_ok p (pre ++ call :: post) f hf ht,
          processToolCalls_cons_ok p (pre ++ post) f hf ht, ih]
      · have hp' : isProcessable p = false := by simpa using hp
        rw [List.cons_append, List.cons_append,
          processToolCalls_cons_skip p (pre ++ call :: post) hp',
          processToolCalls_cons_skip p (pre ++ post) hp', ih]
  refine ⟨key, ?_⟩
  rcases hp2 : processToolCalls (pre ++ post) with e | toolMsgs
  · rw [runBookingAgent_some_err ⟨content, some (pre ++ call :: post)⟩ resp2Content
        (pre ++ call :: post) rfl e (key.trans hp2),
      runBookingAgent_some_err ⟨content, some (pre ++ post)⟩ resp2Content
        (pre ++ post) rfl e hp2]
  · rw [runBookingAgent_some_eq ⟨content, some (pre ++ call :: post)⟩ resp2Content
        (pre ++ call :: post) rfl toolMsgs (key.trans hp2),
      runBookingAgent_some_eq ⟨content, some (pre ++ post)⟩ resp2Content
        (pre ++ post) rfl toolMsgs hp2]
    simp [toolResultMessages, List.filter_append, isToolResult, initialUserMessage,
      Except.map]

/-- Witness for C10 at a concrete entry lacking a function field. -/
theorem invalid_call_skipped_witness :
    processToolCalls ([] ++ badCall :: []) = processToolCalls ([] ++ []) ∧
    (runBookingAgent ⟨"", some ([] ++ badCall :: [])⟩ "done").map
        (fun out => toolResultMessages out.finalMessages) =
      (runBookingAgent ⟨"", some ([] ++ [])⟩ "done").map
        (fun out => toolResultMessages out.finalMessages) :=
  invalid_call_skipped [] [] badCall "" "done" (by decide)

end BookingAgent
